import Mathlib

/-!
Verification development for the gift-code synchronisation service
(`cogs/gift_operationsapi.py`): a shallow embedding of its data model and
operations, followed by theorems about the behaviour of each operation.

Remote HTTP traffic is modelled by passing the remote response in as data
(`ApiResponse`) and recording every outgoing request in a trace
(`RemoteCall`).  The SQLite tables are modelled as association lists.  The
clock (`datetime.now()`) is passed in explicitly; the source reads it twice
in `add_giftcode`, so that operation takes two clock parameters.
-/

namespace GiftAPI

/-! ## Python string primitives (ASCII fragment)

`str.strip()` / `str.split()` operate on Unicode whitespace; the lines this
service handles are ASCII, so the whitespace set is modelled by its ASCII
fragment. -/

def pyIsSpace (c : Char) : Bool :=
  c = ' ' || c = '\t' || c = '\n' || c = '\x0d' || c = '\x0b' || c = '\x0c'

/-- `str.strip()`: drop leading and trailing whitespace. -/
def pyStrip (s : List Char) : List Char :=
  ((s.dropWhile pyIsSpace).reverse.dropWhile pyIsSpace).reverse

/-- Worker for `pySplit`; `acc` holds the current token reversed. -/
def pySplitAux : List Char → List Char → List (List Char)
  | [], acc => if acc.isEmpty then [] else [acc.reverse]
  | c :: rest, acc =>
    if pyIsSpace c then
      if acc.isEmpty then pySplitAux rest []
      else acc.reverse :: pySplitAux rest []
    else pySplitAux rest (c :: acc)

/-- `str.split()` with no argument: split on whitespace runs, no empty tokens. -/
def pySplit (s : List Char) : List (List Char) := pySplitAux s []

/-- `[a-zA-Z0-9]` (the pattern `^[a-zA-Z0-9]+$` is ASCII-only by construction). -/
def isAlnumChar (c : Char) : Bool := c.isAlpha || c.isDigit

/-- `re.match(r"^[a-zA-Z0-9]+$", s)`: non-empty, all ASCII alphanumeric.
(The `$`-before-trailing-newline subtlety of Python regexes cannot trigger
here: the matched token comes from `str.split()` and contains no newline.) -/
def isAlnum (s : List Char) : Bool := !s.isEmpty && s.all isAlnumChar

/-- ASCII decimal digit, written as the explicit character class `\d` matches
on ASCII input (the lines handled here are ASCII; Unicode digits are out of
the modelled fragment). -/
def isDigitChar (c : Char) : Bool :=
  c = '0' || c = '1' || c = '2' || c = '3' || c = '4' ||
  c = '5' || c = '6' || c = '7' || c = '8' || c = '9'

/-- Numeric value of a decimal digit character. -/
def digitVal (c : Char) : Nat := c.toNat - 48

/-! ## Dates: `datetime.strptime` / `strftime` for the two formats used -/

structure Date where
  day : Nat
  month : Nat
  year : Nat
deriving DecidableEq, Repr

def isLeap (y : Nat) : Bool := y % 4 = 0 && (y % 100 ≠ 0 || y % 400 = 0)

def daysInMonth (m y : Nat) : Nat :=
  if m = 2 then (if isLeap y then 29 else 28)
  else if m = 4 || m = 6 || m = 9 || m = 11 then 30
  else 31

/-- CPython `_strptime` day pattern `3[01]|[12]\d|0[1-9]|[1-9]`: one or two
digits with value 1..31 (full match on the dot-free component). -/
def matchDayTok : List Char → Option Nat
  | [a] => if isDigitChar a && a ≠ '0' then some (digitVal a) else none
  | [a, b] =>
    if isDigitChar a && isDigitChar b
        && 1 ≤ 10 * digitVal a + digitVal b && 10 * digitVal a + digitVal b ≤ 31 then
      some (10 * digitVal a + digitVal b)
    else none
  | _ => none

/-- CPython `_strptime` month pattern `1[0-2]|0[1-9]|[1-9]`: one or two digits
with value 1..12. -/
def matchMonthTok : List Char → Option Nat
  | [a] => if isDigitChar a && a ≠ '0' then some (digitVal a) else none
  | [a, b] =>
    if isDigitChar a && isDigitChar b
        && 1 ≤ 10 * digitVal a + digitVal b && 10 * digitVal a + digitVal b ≤ 12 then
      some (10 * digitVal a + digitVal b)
    else none
  | _ => none

/-- CPython `_strptime` year pattern `\d\d\d\d`: exactly four digits. -/
def matchYearTok : List Char → Option Nat
  | [a, b, c, d] =>
    if isDigitChar a && isDigitChar b && isDigitChar c && isDigitChar d then
      some (1000 * digitVal a + 100 * digitVal b + 10 * digitVal c + digitVal d)
    else none
  | _ => none

/-- Split on a literal separator character, keeping empty components
(`str.split('.')` semantics).  Because the surrounding patterns are digit-only
and the separators are literal, matching the `strptime` regex is equivalent to
splitting on the separator and matching each component. -/
def splitSep (sep : Char) : List Char → List (List Char)
  | [] => [[]]
  | c :: rest =>
    if c = sep then [] :: splitSep sep rest
    else
      match splitSep sep rest with
      | [] => [[c]]
      | h :: t => (c :: h) :: t

/-- `datetime.strptime(s, "%d.%m.%Y")`, including the calendar-validity check
performed by the `datetime` constructor (`ValueError` on e.g. 31.02.2024 or
year 0000). -/
def strptimeDMY (s : List Char) : Option Date :=
  match splitSep '.' s with
  | [p1, p2, p3] =>
    match matchDayTok p1, matchMonthTok p2, matchYearTok p3 with
    | some d, some m, some y =>
      if 1 ≤ y && d ≤ daysInMonth m y then some ⟨d, m, y⟩ else none
    | _, _, _ => none
  | _ => none

/-- `datetime.strptime(s, "%Y-%m-%d")` (used by the push-back step on the
stored ISO dates). -/
def strptimeISO (s : List Char) : Option Date :=
  match splitSep '-' s with
  | [p1, p2, p3] =>
    match matchYearTok p1, matchMonthTok p2, matchDayTok p3 with
    | some y, some m, some d =>
      if 1 ≤ y && d ≤ daysInMonth m y then some ⟨d, m, y⟩ else none
    | _, _, _ => none
  | _ => none

/-- `%d` / `%m`: zero-padded to two digits (values here are ≤ 31). -/
def two (n : Nat) : List Char := [Nat.digitChar (n / 10), Nat.digitChar (n % 10)]

/-- Fuel-driven worker for `natChars` (structural recursion, so that the
kernel can evaluate it; any fuel above `n` gives the same answer). -/
def natCharsAux : Nat → Nat → List Char
  | 0, _ => []
  | fuel + 1, n =>
    if n < 10 then [Nat.digitChar n]
    else natCharsAux fuel (n / 10) ++ [Nat.digitChar (n % 10)]

/-- `%Y`: unpadded decimal rendering (glibc behaviour for years < 1000). -/
def natChars (n : Nat) : List Char := natCharsAux (n + 1) n

/-- `date.strftime("%d.%m.%Y")`. -/
def fmtDDMMYYYY (d : Date) : String :=
  ⟨two d.day ++ '.' :: two d.month ++ '.' :: natChars d.year⟩

/-- `date.strftime("%Y-%m-%d")`. -/
def fmtISO (d : Date) : String :=
  ⟨natChars d.year ++ '-' :: two d.month ++ '-' :: two d.day⟩

/-! ## JSON values (the shapes `json.loads` can produce) -/

inductive Json where
  | null
  | bool (b : Bool)
  | num (n : Int)
  | str (s : String)
  | arr (elems : List Json)
  | obj (fields : List (String × Json))
deriving Repr

/-- `result.get(k)` on a dict (`json.loads` keeps the last of duplicate keys);
`none` when `result` is not a dict or lacks the key. -/
def Json.find (j : Json) (k : String) : Option Json :=
  match j with
  | .obj fs => (fs.reverse.find? (fun p => p.1 = k)).map (·.2)
  | _ => none

/-- `k in result` for a dict (`False` for non-dicts, matching the
`isinstance(result, dict) and k in result` guards in the source). -/
def Json.hasKey (j : Json) (k : String) : Bool := (j.find k).isSome

/-- Python truthiness of a JSON value. -/
def pyTruthy : Json → Bool
  | .null => false
  | .bool b => b
  | .num n => n ≠ 0
  | .str s => s ≠ ""
  | .arr l => !l.isEmpty
  | .obj f => !f.isEmpty

/-! ## Local store, remote responses, outgoing-request trace -/

/-- The tables of `db/app.sqlite` used by the service, as association lists
(row order = insertion order; `giftcode` is the `gift_codes` primary key). -/
structure DB where
  gift_codes : List (String × String)
  user_giftcodes : List (String × String)
  giftcodecontrol : List (String × Nat)
  admin : List (String × Nat)
deriving DecidableEq, Repr

def emptyDB : DB := ⟨[], [], [], []⟩

/-- One HTTP request issued by the service, with the headers it was sent
with.  `post code date` / `del code` record the JSON payloads
`{"code": ..., "date": ...}` / `{"code": ...}`; all POST/DELETE requests go
to the fixed endpoint, GET records its full URL. -/
inductive RemoteCall where
  | get (url : String) (headers : List (String × String))
  | post (code : String) (date : String) (headers : List (String × String))
  | del (code : String) (headers : List (String × String))
deriving DecidableEq, Repr

def api_url : String := "https://wosland.com/apidc/giftapi/giftcode_api.php"

def api_key : String := "serioyun_gift_api_key_2024"

/-- Headers built in `sync_with_api`. -/
def syncHeaders : List (String × String) :=
  [("X-API-Key", api_key), ("Content-Type", "application/json")]

/-- Headers built in `add_giftcode` / `remove_giftcode`. -/
def lifecycleHeaders : List (String × String) :=
  [("Content-Type", "application/json"), ("X-API-Key", api_key)]

/-- The remote side's answer to one request: HTTP status, whether the raw
text body is blank (`response_text.strip() == ""`), and the result of
`json.loads` on it (`none` = `JSONDecodeError` / unparseable body). -/
structure ApiResponse where
  status : Nat
  bodyEmpty : Bool
  bodyJson : Option Json
deriving Repr

/-- Does a call's header list carry the shared API key? -/
def hasApiKeyHeader : RemoteCall → Bool
  | .get _ hs => hs.contains ("X-API-Key", api_key)
  | .post _ _ hs => hs.contains ("X-API-Key", api_key)
  | .del _ hs => hs.contains ("X-API-Key", api_key)

def RemoteCall.isDel : RemoteCall → Bool
  | .del _ _ => true
  | _ => false

def RemoteCall.isPost : RemoteCall → Bool
  | .post _ _ _ => true
  | _ => false

/-! ## `sync_with_api` -/

/-- One element of the `codes` array, as consumed by
`(code_line or "").strip()`: a string is used as is, a falsy value becomes
`""`, and a truthy non-string raises `AttributeError` on `.strip()` (which
the outer `except` of `sync_with_api` turns into an aborted pass). -/
def lineOfJson (j : Json) : Option String :=
  match j with
  | .str s => some s
  | _ => if pyTruthy j then none else some ""

/-- `lineOfJson` over a list, aborting at the first failing element (the
loop body raises there and the pass's outer `except` takes over). -/
def traverseLines : List Json → Option (List String)
  | [] => some []
  | j :: rest => (lineOfJson j).bind (fun s => (traverseLines rest).map (fun t => s :: t))

/-- The iteration source `result.get('codes', []) if isinstance(result, dict)
else []`, iterated with `for code_line in ...`: a list yields its elements, a
string its characters (each a one-character string), a dict its keys; other
values are not iterable (`TypeError`, aborting the pass). -/
def linesOfCodesVal : Json → Option (List String)
  | .arr xs => traverseLines xs
  | .str s => some (s.data.map (fun c => String.mk [c]))
  | .obj fs => some (fs.map (·.1))
  | _ => none

/-- The pull step of `sync_with_api` (lines 231-256): returns the raw lines,
or the early-return value (`.error none` = `return None`,
`.error (some false)` = `return False` on an explicit API error payload). -/
def pullLines (resp : ApiResponse) : Except (Option Bool) (List String) :=
  if resp.status ≠ 200 then .error none
  else if resp.bodyEmpty then .error none
  else
    match resp.bodyJson with
    | none => .error none
    | some result =>
      if result.hasKey "error" then .error (some false)
      else
        let codesVal :=
          match result with
          | .obj _ => (result.find "codes").getD (.arr [])
          | _ => .arr []
        match linesOfCodesVal codesVal with
        | none => .error none
        | some ls => .ok ls

/-- The per-line body of the parsing loop (lines 260-276): strip, split,
require exactly two tokens, alphanumeric code, `DD.MM.YYYY` date.  `inl` is
an entry of `valid_codes`, `inr` the (stripped) line appended to
`invalid_codes`. -/
def classifyLine (raw : String) : (String × Date) ⊕ String :=
  match pySplit (pyStrip raw.data) with
  | [codeTok, dateTok] =>
    if isAlnum codeTok then
      match strptimeDMY dateTok with
      | some d => .inl (⟨codeTok⟩, d)
      | none => .inr ⟨pyStrip raw.data⟩
    else .inr ⟨pyStrip raw.data⟩
  | _ => .inr ⟨pyStrip raw.data⟩

/-- `invalid_line.split()[0] if ' ' in invalid_line else invalid_line`
(line 283).  The test is for the literal space character only.  The `headD`
default is unreachable: the line is stripped, so if it contains a space it
also contains a non-whitespace character and `split()` is non-empty. -/
def cleanupCandidate (l : String) : String :=
  if l.data.contains ' ' then ⟨(pySplit l.data).headD l.data⟩ else l

/-- The remote-cleanup loop (lines 279-287): one DELETE per invalid line;
each iteration is wrapped in its own `try`/`except`, so a failed DELETE does
not stop the loop — every invalid line still contributes its request. -/
def cleanupCalls (invalid : List String) : List RemoteCall :=
  invalid.map (fun l => RemoteCall.del (cleanupCandidate l) syncHeaders)

/-- `INSERT OR IGNORE INTO gift_codes`. -/
def insertOrIgnoreGift (t : List (String × String)) (c d : String) :
    List (String × String) :=
  if (t.find? (fun r => r.1 = c)).isSome then t else t ++ [(c, d)]

/-- One iteration of the insert loop (lines 291-301): membership is tested
against the `db_codes` snapshot taken at the start of the pass, not against
the current table, and `new_codes` is a list that is appended to on every
iteration that passes the snapshot test. -/
def insertStep (snapshot : List (String × String))
    (acc : List (String × String) × List (String × String)) (cd : String × Date) :
    List (String × String) × List (String × String) :=
  let formatted := fmtISO cd.2
  if (snapshot.find? (fun r => r.1 = cd.1)).isSome then acc
  else (insertOrIgnoreGift acc.1 cd.1 formatted, acc.2 ++ [(cd.1, formatted)])

/-- The insert loop over `valid_codes`, returning the updated table and the
collected `new_codes`. -/
def insertNewCodes (snapshot : List (String × String)) (valid : List (String × Date)) :
    List (String × String) × List (String × String) :=
  valid.foldl (insertStep snapshot) (snapshot, [])

/-- Admin notifications (lines 320-345): for each new code, one DM attempt
per initial admin; a single delivery failure is swallowed. -/
def dispatchNotifications (adminIds : List String) (newCodes : List (String × String)) :
    List (String × String × String) :=
  newCodes.flatMap (fun cd => adminIds.map (fun a => (a, cd.1, cd.2)))

/-- Auto-claim (lines 348-357): for each status-1 alliance, each new code is
redeemed once per `new_codes` entry (the redemption collaborator is modelled
as present). -/
def dispatchAutoclaims (alliances : List String) (newCodes : List (String × String)) :
    List (String × String) :=
  alliances.flatMap (fun al => newCodes.map (fun cd => (al, cd.1)))

/-- The push-back loop (lines 365-374): every snapshot row whose stored date
re-parses as ISO is POSTed back in `DD.MM.YYYY` form; a row with an
unparseable date is skipped (per-iteration `except`).  The `gift_codes`
primary key makes snapshot rows key-unique, so the list is the same mapping
as the Python dict built from it. -/
def pushbackCalls (snapshot : List (String × String)) : List RemoteCall :=
  snapshot.filterMap (fun r =>
    (strptimeISO r.2.data).map (fun d => RemoteCall.post r.1 (fmtDDMMYYYY d) syncHeaders))

/-- Everything one pass produces: the new store, the Python return value,
the collected `new_codes`, the outgoing requests in order, and the dispatch
events. -/
structure SyncResult where
  db : DB
  ret : Option Bool
  newCodes : List (String × String)
  calls : List RemoteCall
  notifications : List (String × String × String)
  autoclaims : List (String × String)
deriving DecidableEq, Repr

def sync_getCall : RemoteCall := .get api_url syncHeaders

/-- `GiftCodeAPI.sync_with_api` (lines 214-380), with the remote GET response
passed in as data. -/
def sync_with_api (db : DB) (resp : ApiResponse) : SyncResult :=
  let db_codes := db.gift_codes
  match pullLines resp with
  | .error r => ⟨db, r, [], [sync_getCall], [], []⟩
  | .ok rawLines =>
    let classified := rawLines.map classifyLine
    let valid_codes := classified.filterMap Sum.getLeft?
    let invalid_codes := classified.filterMap Sum.getRight?
    let delCalls := cleanupCalls invalid_codes
    let inserted := insertNewCodes db_codes valid_codes
    let new_codes := inserted.2
    let auto_alliances := (db.giftcodecontrol.filter (fun r => r.2 = 1)).map (·.1)
    let admin_ids := (db.admin.filter (fun r => r.2 = 1)).map (·.1)
    let notes := if new_codes.isEmpty then [] else dispatchNotifications admin_ids new_codes
    let claims := if new_codes.isEmpty then [] else dispatchAutoclaims auto_alliances new_codes
    let pushCalls := pushbackCalls db_codes
    ⟨{ db with gift_codes := inserted.1 }, some true, new_codes,
      [sync_getCall] ++ delCalls ++ pushCalls, notes, claims⟩

/-! ## On-demand lifecycle operations -/

/-- Result of an on-demand operation: new store, boolean return value,
outgoing requests. -/
structure OpResult where
  db : DB
  ok : Bool
  calls : List RemoteCall
deriving DecidableEq, Repr

/-- `GiftCodeAPI.add_giftcode` (lines 383-420).  The clock is read twice in
the source — once for the remote payload (line 392) and once for the local
row (line 407) — so the two reads are separate parameters here.  A body that
fails `response.json()` becomes `result = {}`, and `result.get('success',
True)` then defaults to success; a parseable non-dict body raises on `.get`
and the outer `except` returns `False` without inserting. -/
def add_giftcode (db : DB) (giftcode : String) (resp : ApiResponse)
    (nowPost nowInsert : Date) : OpResult :=
  if (db.gift_codes.find? (fun r => r.1 = giftcode)).isSome then ⟨db, false, []⟩
  else
    let postCall := RemoteCall.post giftcode (fmtDDMMYYYY nowPost) lifecycleHeaders
    if resp.status ≠ 200 then ⟨db, false, [postCall]⟩
    else
      match resp.bodyJson.getD (.obj []) with
      | .obj fields =>
        if ((Json.obj fields).find "success").elim true pyTruthy then
          ⟨{ db with gift_codes := insertOrIgnoreGift db.gift_codes giftcode (fmtISO nowInsert) },
            true, [postCall]⟩
        else ⟨db, false, [postCall]⟩
      | _ => ⟨db, false, [postCall]⟩

/-- `GiftCodeAPI.remove_giftcode` (lines 422-463).  Note the success test of
line 444: `bool(result.get('success', False) or ('success' in result))` — on
a dict body it is equivalent to mere *presence* of the `success` key,
whatever its value.  A non-dict JSON body raises on `.get` and the outer
`except` returns `False`. -/
def remove_giftcode (db : DB) (giftcode : String) (from_validation : Bool)
    (resp : ApiResponse) : OpResult :=
  if !from_validation then ⟨db, false, []⟩
  else
    let delCall := RemoteCall.del giftcode lifecycleHeaders
    if resp.status ≠ 200 then ⟨db, false, [delCall]⟩
    else
      match resp.bodyJson with
      | none => ⟨db, false, [delCall]⟩
      | some result =>
        match result with
        | .obj _ =>
          let success := ((result.find "success").map pyTruthy).getD false
              || result.hasKey "success"
          if !success then ⟨db, false, [delCall]⟩
          else
            ⟨{ db with
                user_giftcodes := db.user_giftcodes.filter (fun r => r.2 ≠ giftcode),
                gift_codes := db.gift_codes.filter (fun r => r.1 ≠ giftcode) },
              true, [delCall]⟩
        | _ => ⟨db, false, [delCall]⟩

/-- `GiftCodeAPI.check_giftcode` (lines 465-480).  The GET is issued without
the `headers` argument — no `X-API-Key` is sent. -/
def check_giftcode (giftcode : String) (resp : ApiResponse) : Bool × List RemoteCall :=
  let call := RemoteCall.get (api_url ++ "?action=check&giftcode=" ++ giftcode) []
  if resp.status ≠ 200 then (false, [call])
  else
    match resp.bodyJson with
    | none => (false, [call])
    | some result =>
      match result with
      | .obj _ => (((result.find "exists").map pyTruthy).getD false, [call])
      | _ => (false, [call])

/-- The three terminal negative redemption outcomes of line 505. -/
def tripleNegative (s : String) : Bool :=
  s = "TIME_ERROR" || s = "CDK_NOT_FOUND" || s = "USAGE_LIMIT"

/-- One iteration of the cleanup loop (lines 498-508): look up the
collaborator's outcome for the code and remove it (validated) only on one of
the three terminal negative outcomes. -/
def validateStep (statusOf : String → Option String) (deleteResp : String → ApiResponse)
    (acc : DB × List String × List RemoteCall) (code : String) :
    DB × List String × List RemoteCall :=
  match statusOf code with
  | some s =>
    if tripleNegative s then
      let r := remove_giftcode acc.1 code true (deleteResp code)
      (r.db, acc.2.1 ++ [code], acc.2.2 ++ r.calls)
    else acc
  | none => acc

/-- `GiftCodeAPI.validate_and_clean_giftcode_file` (lines 482-511), with the
redemption collaborator modelled as `statusOf` (`none` = the call raised, in
which case `status = None` and the code is kept) and the remote DELETE
responses as `deleteResp`.  Returns the final store, the codes on which
`remove_giftcode(code, from_validation=True)` was invoked, and the outgoing
requests.  The row list is fetched once before the loop; each iteration has
its own exception handling, so one code's failure does not stop the rest. -/
def validate_and_clean_giftcode_file (db : DB) (statusOf : String → Option String)
    (deleteResp : String → ApiResponse) : DB × List String × List RemoteCall :=
  (db.gift_codes.map (·.1)).foldl (validateStep statusOf deleteResp) (db, [], [])

/-! ## Derived characterisations used by several theorems -/

/-- The condition under which a validated `remove_giftcode` proceeds to the
local deletion: HTTP 200 and a JSON *object* body that merely *contains* a
`success` key (its value is irrelevant, see line 444). -/
def removeConfirmed (resp : ApiResponse) : Bool :=
  resp.status == 200 &&
    match resp.bodyJson with
    | some (.obj fs) => Json.hasKey (.obj fs) "success"
    | _ => false

/-- The condition under which `add_giftcode` counts the remote POST as a
success: HTTP 200 and either an unparseable body (treated as `{}`, whose
`get('success', True)` defaults to `True`) or an object body whose
`success` field is absent or truthy. -/
def addAccepts (resp : ApiResponse) : Bool :=
  resp.status == 200 &&
    match resp.bodyJson.getD (.obj []) with
    | .obj fs => ((Json.obj fs).find "success").elim true pyTruthy
    | _ => false

/-- A pull response carrying exactly the given raw lines. -/
def mkCodesResp (rawLines : List String) : ApiResponse :=
  ⟨200, false, some (.obj [("codes", .arr (rawLines.map .str))])⟩

/-- Pull-step failure, as the source distinguishes it: non-200 status, blank
body, unparseable JSON, or an explicit error payload. -/
def pullFailed (resp : ApiResponse) : Prop :=
  resp.status ≠ 200 ∨ resp.bodyEmpty = true ∨ resp.bodyJson = none ∨
    ∃ j, resp.bodyJson = some j ∧ j.hasKey "error" = true

/-- Number of entries of a keyed list carrying the given key. -/
def countKey {α : Type} (t : List (String × α)) (c : String) : Nat :=
  (t.filter (fun r => r.1 = c)).length

/-- Did the redemption collaborator's outcome for this code fall in the
terminal-negative set? -/
def statusTriple (statusOf : String → Option String) (c : String) : Bool :=
  match statusOf c with
  | some s => tripleNegative s
  | none => false

lemma remove_giftcode_spec (db : DB) (code : String) (resp : ApiResponse) :
    remove_giftcode db code true resp =
      if removeConfirmed resp then
        ⟨{ db with
            user_giftcodes := db.user_giftcodes.filter (fun r => r.2 ≠ code),
            gift_codes := db.gift_codes.filter (fun r => r.1 ≠ code) },
          true, [RemoteCall.del code lifecycleHeaders]⟩
      else ⟨db, false, [RemoteCall.del code lifecycleHeaders]⟩ := by
  rcases resp with ⟨st, be, bj⟩
  by_cases hst : st = 200
  · subst hst
    rcases bj with _ | j
    · simp [remove_giftcode, removeConfirmed]
    · rcases j with _ | b | n | s | xs | fs
      · simp [remove_giftcode, removeConfirmed]
      · simp [remove_giftcode, removeConfirmed]
      · simp [remove_giftcode, removeConfirmed]
      · simp [remove_giftcode, removeConfirmed]
      · simp [remove_giftcode, removeConfirmed]
      · rcases h : (Json.obj fs).find "success" with _ | v
        · simp [remove_giftcode, removeConfirmed, Json.hasKey, h]
        · simp [remove_giftcode, removeConfirmed, Json.hasKey, h]
  · have : (st == 200) = false := by simpa using hst
    simp [remove_giftcode, removeConfirmed, hst, this]

lemma add_giftcode_spec (db : DB) (code : String) (resp : ApiResponse)
    (now1 now2 : Date)
    (habs : db.gift_codes.find? (fun r => r.1 = code) = none) :
    add_giftcode db code resp now1 now2 =
      if addAccepts resp then
        ⟨{ db with gift_codes := db.gift_codes ++ [(code, fmtISO now2)] },
          true, [RemoteCall.post code (fmtDDMMYYYY now1) lifecycleHeaders]⟩
      else ⟨db, false, [RemoteCall.post code (fmtDDMMYYYY now1) lifecycleHeaders]⟩ := by
  rcases resp with ⟨st, be, bj⟩
  by_cases hst : st = 200
  · subst hst
    rcases bj with _ | j
    · simp [add_giftcode, addAccepts, habs, insertOrIgnoreGift, Json.find]
    · rcases j with _ | b | n | s | xs | fs
      · simp [add_giftcode, addAccepts, habs]
      · simp [add_giftcode, addAccepts, habs]
      · simp [add_giftcode, addAccepts, habs]
      · simp [add_giftcode, addAccepts, habs]
      · simp [add_giftcode, addAccepts, habs]
      · rcases h : (Json.obj fs).find "success" with _ | v
        · simp [add_giftcode, addAccepts, habs, insertOrIgnoreGift, h]
        · by_cases hv : pyTruthy v
          · simp [add_giftcode, addAccepts, habs, insertOrIgnoreGift, h, hv]
          · simp [add_giftcode, addAccepts, habs, insertOrIgnoreGift, h, hv]
  · have hb : (st == 200) = false := by simpa using hst
    simp [add_giftcode, addAccepts, habs, hst, hb]

lemma lineOfJson_map_str (ls : List String) :
    traverseLines (ls.map Json.str) = some ls := by
  induction ls with
  | nil => rfl
  | cons a t ih => simp [traverseLines, lineOfJson, ih]

lemma pullLines_mkCodesResp (rawLines : List String) :
    pullLines (mkCodesResp rawLines) = .ok rawLines := by
  simp [pullLines, mkCodesResp, Json.hasKey, Json.find, linesOfCodesVal,
    lineOfJson_map_str]

/-- The success path of a pass, with every component spelled out. -/
lemma sync_with_api_ok (db : DB) (rawLines : List String) :
    sync_with_api db (mkCodesResp rawLines) =
      ⟨{ db with
          gift_codes :=
            (insertNewCodes db.gift_codes
              ((rawLines.map classifyLine).filterMap Sum.getLeft?)).1 },
        some true,
        (insertNewCodes db.gift_codes
          ((rawLines.map classifyLine).filterMap Sum.getLeft?)).2,
        [sync_getCall]
          ++ cleanupCalls ((rawLines.map classifyLine).filterMap Sum.getRight?)
          ++ pushbackCalls db.gift_codes,
        (if (insertNewCodes db.gift_codes
              ((rawLines.map classifyLine).filterMap Sum.getLeft?)).2.isEmpty then []
         else dispatchNotifications ((db.admin.filter (fun r => r.2 = 1)).map (·.1))
            (insertNewCodes db.gift_codes
              ((rawLines.map classifyLine).filterMap Sum.getLeft?)).2),
        (if (insertNewCodes db.gift_codes
              ((rawLines.map classifyLine).filterMap Sum.getLeft?)).2.isEmpty then []
         else dispatchAutoclaims ((db.giftcodecontrol.filter (fun r => r.2 = 1)).map (·.1))
            (insertNewCodes db.gift_codes
              ((rawLines.map classifyLine).filterMap Sum.getLeft?)).2)⟩ := by
  rw [sync_with_api, pullLines_mkCodesResp]

/-! ## Claim theorems -/

/-- Claim C1: whenever the pull step fails — non-200 HTTP status, blank body,
unparseable JSON, or an explicit API error payload — `sync_with_api` returns
before any local mutation: the store is exactly as it was, no new codes are
collected, no notification or auto-claim is dispatched, and the only request
issued is the initial GET (no remote DELETE or POST). -/
theorem sync_pull_failure_no_mutation (db : DB) (resp : ApiResponse)
    (h : pullFailed resp) :
    (sync_with_api db resp).db = db ∧
    (sync_with_api db resp).newCodes = [] ∧
    (sync_with_api db resp).calls = [sync_getCall] ∧
    (sync_with_api db resp).notifications = [] ∧
    (sync_with_api db resp).autoclaims = [] := by
  have hE : ∃ r, pullLines resp = Except.error r := by
    by_cases h1 : resp.status = 200
    · by_cases h2 : resp.bodyEmpty = true
      · exact ⟨none, by simp [pullLines, h1, h2]⟩
      · rcases h with h | h | h | ⟨j, hj, he⟩
        · exact absurd h1 h
        · exact absurd h h2
        · exact ⟨none, by simp [pullLines, h1, h2, h]⟩
        · exact ⟨some false, by simp [pullLines, h1, h2, hj, he]⟩
    · exact ⟨none, by simp [pullLines, h1]⟩
  obtain ⟨r, hr⟩ := hE
  simp [sync_with_api, hr]

/-- Witness for C1 at a concrete failing response (HTTP 500). -/
theorem sync_pull_failure_no_mutation_witness :
    pullFailed ⟨500, false, none⟩ ∧
    (sync_with_api emptyDB ⟨500, false, none⟩).db = emptyDB ∧
    (sync_with_api emptyDB ⟨500, false, none⟩).calls = [sync_getCall] := by
  have hp : pullFailed ⟨500, false, none⟩ := Or.inl (by decide)
  have h := sync_pull_failure_no_mutation emptyDB ⟨500, false, none⟩ hp
  exact ⟨hp, h.1, h.2.2.1⟩

/-- Claim C5: `remove_giftcode` with `from_validation = False` (the default)
returns `False`, issues no remote request and leaves the store untouched. -/
theorem remove_giftcode_unvalidated_noop (db : DB) (code : String)
    (resp : ApiResponse) :
    remove_giftcode db code false resp = ⟨db, false, []⟩ := rfl

/-- Counterexample to claim C3: a remote DELETE answered with HTTP 200 and
the body `{"success": false}` does *not* make `remove_giftcode` fail — it
deletes the code and its claim rows and returns `True`, because the success
test of line 444 also accepts a present-but-false `success` field. -/
theorem remove_giftcode_success_false_cex :
    (remove_giftcode ⟨[("OLD1", "2024-06-01")], [("u1", "OLD1")], [], []⟩ "OLD1" true
        ⟨200, false, some (.obj [("success", .bool false)])⟩).ok = true ∧
    (remove_giftcode ⟨[("OLD1", "2024-06-01")], [("u1", "OLD1")], [], []⟩ "OLD1" true
        ⟨200, false, some (.obj [("success", .bool false)])⟩).db = emptyDB := by
  decide

/-- Claim C3 as amended: validated removal deletes the code row and its
dependent claim rows together exactly when the remote DELETE came back with
HTTP 200 and a JSON object body *containing* a `success` key (whatever its
value); for every other response it returns `False` and leaves the store
unchanged.  Exactly one DELETE request is issued either way. -/
theorem remove_giftcode_validated_gate (db : DB) (code : String)
    (resp : ApiResponse) :
    (remove_giftcode db code true resp).ok = removeConfirmed resp ∧
    (remove_giftcode db code true resp).db =
      (if removeConfirmed resp then
          { db with
              user_giftcodes := db.user_giftcodes.filter (fun r => r.2 ≠ code),
              gift_codes := db.gift_codes.filter (fun r => r.1 ≠ code) }
        else db) ∧
    (remove_giftcode db code true resp).calls
      = [RemoteCall.del code lifecycleHeaders] := by
  rw [remove_giftcode_spec]
  by_cases h : removeConfirmed resp <;> simp [h]

/-- Counterexample to claim C4: a POST answered with HTTP 200 and an
unparseable JSON body makes `add_giftcode` *insert* the code and return
`True` (the `except` of line 401 turns the body into `{}`, and
`result.get('success', True)` then defaults to success), not fail. -/
theorem add_giftcode_malformed_json_cex :
    (add_giftcode emptyDB "NEWX" ⟨200, false, none⟩ ⟨1, 6, 2024⟩ ⟨1, 6, 2024⟩).ok
        = true ∧
    (add_giftcode emptyDB "NEWX" ⟨200, false, none⟩ ⟨1, 6, 2024⟩
        ⟨1, 6, 2024⟩).db.gift_codes = [("NEWX", "2024-06-01")] := by
  decide

/-- Claim C4 as amended: for a code not present locally, `add_giftcode`
inserts exactly when `addAccepts` holds — HTTP 200 with a body that is
unparseable, a JSON object lacking `success`, or one whose `success` is
truthy.  Non-200 responses are indeed failures that leave local state
unchanged; but a malformed body under HTTP 200 is treated as success, not
failure. -/
theorem add_giftcode_remote_gate (db : DB) (code : String) (resp : ApiResponse)
    (now1 now2 : Date)
    (habs : db.gift_codes.find? (fun r => r.1 = code) = none) :
    (add_giftcode db code resp now1 now2).ok = addAccepts resp ∧
    (add_giftcode db code resp now1 now2).db =
      (if addAccepts resp then
          { db with gift_codes := db.gift_codes ++ [(code, fmtISO now2)] }
        else db) ∧
    (resp.status ≠ 200 →
      (add_giftcode db code resp now1 now2).ok = false ∧
      (add_giftcode db code resp now1 now2).db = db) := by
  rw [add_giftcode_spec db code resp now1 now2 habs]
  by_cases h : addAccepts resp
  · have h200 : resp.status = 200 := by
      have hand := h
      simp only [addAccepts, Bool.and_eq_true, beq_iff_eq] at hand
      exact hand.1
    simp [h, h200]
  · simp [h]

/-- Witness for C4 at a concrete absent code and malformed-body response. -/
theorem add_giftcode_remote_gate_witness :
    emptyDB.gift_codes.find? (fun r => r.1 = "NEWX") = none ∧
    addAccepts ⟨200, false, none⟩ = true ∧
    (add_giftcode emptyDB "NEWX" ⟨200, false, none⟩ ⟨1, 6, 2024⟩
        ⟨1, 6, 2024⟩).ok = addAccepts ⟨200, false, none⟩ :=
  ⟨rfl, rfl,
    (add_giftcode_remote_gate emptyDB "NEWX" ⟨200, false, none⟩ ⟨1, 6, 2024⟩
        ⟨1, 6, 2024⟩ rfl).1⟩

/-- Counterexample to claim C10: the clock is read twice — once for the
remote payload, once for the local row — so around midnight the two stored
representations denote different days (remote `31.12.2024`, local
`2025-01-01`). -/
theorem add_giftcode_two_clock_reads_cex :
    (add_giftcode emptyDB "X" ⟨200, false, some (.obj [("success", .bool true)])⟩
        ⟨31, 12, 2024⟩ ⟨1, 1, 2025⟩).ok = true ∧
    (add_giftcode emptyDB "X" ⟨200, false, some (.obj [("success", .bool true)])⟩
        ⟨31, 12, 2024⟩ ⟨1, 1, 2025⟩).calls
      = [RemoteCall.post "X" "31.12.2024" lifecycleHeaders] ∧
    (add_giftcode emptyDB "X" ⟨200, false, some (.obj [("success", .bool true)])⟩
        ⟨31, 12, 2024⟩ ⟨1, 1, 2025⟩).db.gift_codes = [("X", "2025-01-01")] ∧
    (⟨31, 12, 2024⟩ : Date) ≠ ⟨1, 1, 2025⟩ := by
  decide

/-- Claim C10 as amended: `add_giftcode` never accepts a caller-supplied
date — the remote payload is the `DD.MM.YYYY` rendering of the clock read
before the POST and the local row the ISO rendering of the clock read at
insert time.  The two denote the same day whenever the two reads fall on the
same calendar day; they are separate reads, so this is not guaranteed across
midnight. -/
theorem add_giftcode_stamps_clock (db : DB) (code : String) (resp : ApiResponse)
    (now1 now2 : Date)
    (habs : db.gift_codes.find? (fun r => r.1 = code) = none) :
    (∀ cl ∈ (add_giftcode db code resp now1 now2).calls,
        cl = RemoteCall.post code (fmtDDMMYYYY now1) lifecycleHeaders) ∧
    ((add_giftcode db code resp now1 now2).ok = true →
        (add_giftcode db code resp now1 now2).db.gift_codes
          = db.gift_codes ++ [(code, fmtISO now2)]) ∧
    ((add_giftcode db code resp now1 now2).ok = false →
        (add_giftcode db code resp now1 now2).db = db) := by
  rw [add_giftcode_spec db code resp now1 now2 habs]
  by_cases h : addAccepts resp <;> simp [h]

/-- Witness for C10 at a concrete absent code. -/
theorem add_giftcode_stamps_clock_witness :
    emptyDB.gift_codes.find? (fun r => r.1 = "X") = none ∧
    (∀ cl ∈ (add_giftcode emptyDB "X" ⟨200, false, none⟩ ⟨31, 12, 2024⟩
          ⟨1, 1, 2025⟩).calls,
        cl = RemoteCall.post "X" (fmtDDMMYYYY ⟨31, 12, 2024⟩) lifecycleHeaders) :=
  ⟨rfl,
    (add_giftcode_stamps_clock emptyDB "X" ⟨200, false, none⟩ ⟨31, 12, 2024⟩
        ⟨1, 1, 2025⟩ rfl).1⟩

/-! ### C6: duplicate valid lines -/

lemma countKey_nil {α : Type} (c : String) : countKey ([] : List (String × α)) c = 0 := rfl

lemma countKey_cons {α : Type} (r : String × α) (t : List (String × α)) (c : String) :
    countKey (r :: t) c = (if r.1 = c then 1 else 0) + countKey t c := by
  simp only [countKey, List.filter_cons]
  by_cases h : r.1 = c
  · simp [h, Nat.add_comm]
  · simp [h]

lemma countKey_append_one {α : Type} (t : List (String × α)) (r : String × α) (c : String) :
    countKey (t ++ [r]) c = countKey t c + (if r.1 = c then 1 else 0) := by
  simp only [countKey, List.filter_append, List.length_append, List.filter_cons,
    List.filter_nil]
  by_cases h : r.1 = c
  · simp [h]
  · simp [h]

lemma find?_none_iff_countKey {α : Type} (t : List (String × α)) (c : String) :
    t.find? (fun r => r.1 = c) = none ↔ countKey t c = 0 := by
  rw [List.find?_eq_none]
  unfold countKey
  rw [List.length_eq_zero, List.filter_eq_nil_iff]

lemma countKey_insertOrIgnore_self (t : List (String × String)) (c d : String) :
    countKey (insertOrIgnoreGift t c d) c
      = if countKey t c = 0 then 1 else countKey t c := by
  unfold insertOrIgnoreGift
  by_cases h : (t.find? (fun r => r.1 = c)).isSome
  · have hne : countKey t c ≠ 0 := by
      intro h0
      rw [← find?_none_iff_countKey] at h0
      simp [h0] at h
    simp [h, hne]
  · have h0 : countKey t c = 0 := by
      rw [← find?_none_iff_countKey]
      exact Option.not_isSome_iff_eq_none.mp h
    simp [h, h0, countKey_append_one]

lemma countKey_insertOrIgnore_other (t : List (String × String)) (c' d c : String)
    (hne : c' ≠ c) :
    countKey (insertOrIgnoreGift t c' d) c = countKey t c := by
  unfold insertOrIgnoreGift
  split
  · rfl
  · simp [countKey_append_one, hne]

lemma insertNewCodes_aux (snapshot : List (String × String)) (c : String)
    (habs : snapshot.find? (fun r => r.1 = c) = none) :
    ∀ (valid : List (String × Date)) (tbl ncs : List (String × String)),
    countKey (valid.foldl (insertStep snapshot) (tbl, ncs)).1 c
        = (if countKey tbl c = 0 then min (countKey valid c) 1 else countKey tbl c) ∧
    countKey (valid.foldl (insertStep snapshot) (tbl, ncs)).2 c
        = countKey ncs c + countKey valid c := by
  intro valid
  induction valid with
  | nil =>
    intro tbl ncs
    refine ⟨?_, by simp [countKey_nil]⟩
    simp only [List.foldl_nil, countKey_nil]
    split <;> omega
  | cons hd rest ih =>
    intro tbl ncs
    by_cases hsnap : (snapshot.find? (fun r => r.1 = hd.1)).isSome
    · have hne : hd.1 ≠ c := by
        intro heq
        rw [heq, habs] at hsnap
        simp at hsnap
      have hstep : insertStep snapshot (tbl, ncs) hd = (tbl, ncs) := by
        simp [insertStep, hsnap]
      rw [List.foldl_cons, hstep]
      obtain ⟨ih1, ih2⟩ := ih tbl ncs
      refine ⟨?_, ?_⟩
      · rw [ih1, countKey_cons]
        simp [hne]
      · rw [ih2, countKey_cons]
        simp [hne]
    · have hstep : insertStep snapshot (tbl, ncs) hd
          = (insertOrIgnoreGift tbl hd.1 (fmtISO hd.2), ncs ++ [(hd.1, fmtISO hd.2)]) := by
        simp [insertStep, hsnap]
      rw [List.foldl_cons, hstep]
      obtain ⟨ih1, ih2⟩ :=
        ih (insertOrIgnoreGift tbl hd.1 (fmtISO hd.2)) (ncs ++ [(hd.1, fmtISO hd.2)])
      by_cases hc : hd.1 = c
      · refine ⟨?_, ?_⟩
        · rw [ih1, countKey_cons, hc, countKey_insertOrIgnore_self]
          by_cases h0 : countKey tbl c = 0
          · simp [h0]
          · simp [h0]
        · rw [ih2, countKey_append_one, countKey_cons]
          simp [hc]
          omega
      · refine ⟨?_, ?_⟩
        · rw [ih1, countKey_insertOrIgnore_other _ _ _ _ hc, countKey_cons]
          simp [hc]
        · rw [ih2, countKey_append_one, countKey_cons]
          simp [hc]

/-- Counterexample to claim C6: with the same absent code on two valid
lines, the pass leaves exactly one table row, but `new_codes` is a *list*
holding the code twice (the membership test uses only the pre-pass
snapshot), so the single admin is notified twice and the single auto-claim
alliance redeems the code twice in this pass. -/
theorem sync_duplicate_lines_cex :
    (sync_with_api ⟨[], [], [("all1", 1)], [("adm1", 1)]⟩
        (mkCodesResp ["AA 01.06.2024", "AA 01.06.2024"])).db.gift_codes
      = [("AA", "2024-06-01")] ∧
    (sync_with_api ⟨[], [], [("all1", 1)], [("adm1", 1)]⟩
        (mkCodesResp ["AA 01.06.2024", "AA 01.06.2024"])).newCodes
      = [("AA", "2024-06-01"), ("AA", "2024-06-01")] ∧
    (sync_with_api ⟨[], [], [("all1", 1)], [("adm1", 1)]⟩
        (mkCodesResp ["AA 01.06.2024", "AA 01.06.2024"])).notifications
      = [("adm1", "AA", "2024-06-01"), ("adm1", "AA", "2024-06-01")] ∧
    (sync_with_api ⟨[], [], [("all1", 1)], [("adm1", 1)]⟩
        (mkCodesResp ["AA 01.06.2024", "AA 01.06.2024"])).autoclaims
      = [("all1", "AA"), ("all1", "AA")] := by
  decide

/-- Claim C6 as amended: for a code absent from the snapshot, one pass
leaves at most one `gift_codes` row for it (exactly one as soon as it occurs
on a valid line — the insert-if-absent semantics deduplicate the *table*),
but the collected `new_codes` is a list, not a set: it holds one entry per
valid occurrence, so dispatch fires once per occurrence. -/
theorem insert_new_codes_duplicate_lines (snapshot : List (String × String))
    (valid : List (String × Date)) (c : String)
    (habs : snapshot.find? (fun r => r.1 = c) = none) :
    countKey (insertNewCodes snapshot valid).1 c = min (countKey valid c) 1 ∧
    countKey (insertNewCodes snapshot valid).2 c = countKey valid c := by
  have h0 : countKey snapshot c = 0 := (find?_none_iff_countKey snapshot c).mp habs
  obtain ⟨h1, h2⟩ := insertNewCodes_aux snapshot c habs valid snapshot []
  unfold insertNewCodes
  exact ⟨by rw [h1]; simp [h0], by rw [h2, countKey_nil]; omega⟩

/-- Witness for C6: two valid occurrences of an absent code give one table
row and two `new_codes` entries. -/
theorem insert_new_codes_duplicate_lines_witness :
    countKey (insertNewCodes [] [("AA", ⟨1, 6, 2024⟩), ("AA", ⟨1, 6, 2024⟩)]).1 "AA" = 1 ∧
    countKey (insertNewCodes [] [("AA", ⟨1, 6, 2024⟩), ("AA", ⟨1, 6, 2024⟩)]).2 "AA" = 2 := by
  obtain ⟨h1, h2⟩ :=
    insert_new_codes_duplicate_lines [] [("AA", ⟨1, 6, 2024⟩), ("AA", ⟨1, 6, 2024⟩)] "AA" rfl
  exact ⟨by rw [h1]; decide, by rw [h2]; decide⟩

/-! ### C7: remote cleanup of invalid lines -/

lemma pySplitAux_ne_nil (s : List Char) : ∀ acc, acc ≠ [] → pySplitAux s acc ≠ [] := by
  induction s with
  | nil =>
    intro acc hacc
    simp [pySplitAux, hacc]
  | cons c r ih =>
    intro acc hacc
    unfold pySplitAux
    by_cases hc : pyIsSpace c
    · simp [hc, hacc]
    · simpa [hc] using ih (c :: acc) (by simp)

lemma pySplit_ne_nil (s : List Char) (h : ∃ c ∈ s, pyIsSpace c = false) :
    pySplit s ≠ [] := by
  induction s with
  | nil => simp at h
  | cons a r ih =>
    by_cases ha : pyIsSpace a
    · have hr : ∃ c ∈ r, pyIsSpace c = false := by
        rcases h with ⟨c, hc, hcs⟩
        rcases List.mem_cons.mp hc with rfl | hc
        · rw [ha] at hcs; cases hcs
        · exact ⟨c, hc, hcs⟩
      simpa [pySplit, pySplitAux, ha] using ih hr
    · have : pySplit (a :: r) = pySplitAux r [a] := by
        simp [pySplit, pySplitAux, ha]
      rw [this]
      exact pySplitAux_ne_nil r [a] (by simp)

lemma dropWhile_cons_not {α : Type} (p : α → Bool) (l : List α) (c : α) (t : List α)
    (h : l.dropWhile p = c :: t) : p c = false := by
  induction l generalizing t with
  | nil => simp [List.dropWhile] at h
  | cons a r ih =>
    rw [List.dropWhile_cons] at h
    by_cases hp : p a = true
    · rw [if_pos hp] at h
      exact ih t h
    · rw [if_neg hp] at h
      injection h with h1 h2
      subst h1
      simpa using hp

lemma pyStrip_has_not_space (s : List Char) :
    pyStrip s = [] ∨ ∃ c ∈ pyStrip s, pyIsSpace c = false := by
  unfold pyStrip
  cases h : (s.dropWhile pyIsSpace).reverse.dropWhile pyIsSpace with
  | nil => left; rfl
  | cons c t =>
    right
    exact ⟨c, by simp, dropWhile_cons_not pyIsSpace _ c t h⟩

lemma classifyLine_inr_strip (raw l : String) (h : classifyLine raw = Sum.inr l) :
    l.data = pyStrip raw.data := by
  unfold classifyLine at h
  split at h
  · split at h
    · split at h
      · cases h
      · injection h with h1
        subst h1
        rfl
    · injection h with h1
      subst h1
      rfl
  · injection h with h1
    subst h1
    rfl

lemma cleanupCalls_filter_isDel (l : List String) :
    (cleanupCalls l).filter RemoteCall.isDel = cleanupCalls l := by
  induction l with
  | nil => rfl
  | cons a t ih => simp [cleanupCalls, RemoteCall.isDel, List.filter_cons] at ih ⊢

lemma pushbackCalls_filter_isDel (s : List (String × String)) :
    (pushbackCalls s).filter RemoteCall.isDel = [] := by
  induction s with
  | nil => rfl
  | cons r t ih =>
    unfold pushbackCalls at ih ⊢
    rw [List.filterMap_cons]
    cases h : strptimeISO r.2.data with
    | none => simpa [h] using ih
    | some d => simpa [h, List.filter_cons, RemoteCall.isDel] using ih

/-- Counterexample to claim C7: for an invalid line whose tokens are
separated by a tab (no space character), the DELETE candidate is the whole
line, not its leading whitespace-delimited token `"bad"` — the source tests
`' ' in invalid_line` for the literal space only. -/
theorem sync_cleanup_tab_candidate_cex :
    (sync_with_api emptyDB (mkCodesResp ["bad\tline"])).calls
      = [sync_getCall, RemoteCall.del "bad\tline" syncHeaders] ∧
    ("bad\tline" : String) ≠ "bad" ∧
    (pySplit ("bad\tline" : String).data).headD [] = ("bad" : String).data := by
  decide

/-- Claim C7 as amended: every invalid line yields exactly one DELETE
request (per-line exception handling keeps the loop going), and its
candidate code is the leading whitespace-delimited token when the line
contains a *space* character; for any other whitespace separator the whole
line is used as the candidate. -/
theorem sync_cleanup_invalid_lines (db : DB) (rawLines : List String) :
    ((sync_with_api db (mkCodesResp rawLines)).calls.filter RemoteCall.isDel
        = cleanupCalls ((rawLines.map classifyLine).filterMap Sum.getRight?)) ∧
    (cleanupCalls ((rawLines.map classifyLine).filterMap Sum.getRight?)).length
        = ((rawLines.map classifyLine).filterMap Sum.getRight?).length ∧
    ∀ l ∈ (rawLines.map classifyLine).filterMap Sum.getRight?,
      (l.data.contains ' ' = true →
        ∃ tok rest, pySplit l.data = tok :: rest ∧ cleanupCandidate l = ⟨tok⟩) ∧
      (l.data.contains ' ' = false → cleanupCandidate l = l) := by
  refine ⟨?_, by simp [cleanupCalls], ?_⟩
  · rw [sync_with_api_ok]
    simp only [List.filter_append]
    rw [cleanupCalls_filter_isDel, pushbackCalls_filter_isDel]
    simp [sync_getCall, RemoteCall.isDel, List.filter_cons]
  · intro l hl
    obtain ⟨x, hx, hxl⟩ := List.mem_filterMap.mp hl
    obtain ⟨raw, _hraw, hclass⟩ := List.mem_map.mp hx
    have hxr : x = Sum.inr l := by
      cases x with
      | inl v => cases hxl
      | inr v => cases hxl; rfl
    rw [hxr] at hclass
    have hstrip : l.data = pyStrip raw.data := classifyLine_inr_strip raw l hclass
    constructor
    · intro hsp
      have hmem : ' ' ∈ l.data := by simpa using hsp
      have hnonnil : l.data ≠ [] := by
        intro h0
        rw [h0] at hmem
        cases hmem
      have hne : pySplit l.data ≠ [] := by
        apply pySplit_ne_nil
        rcases pyStrip_has_not_space raw.data with h | h
        · rw [hstrip] at hnonnil
          exact absurd h hnonnil
        · rw [hstrip]
          exact h
      cases hps : pySplit l.data with
      | nil => exact absurd hps hne
      | cons tok rest =>
        refine ⟨tok, rest, rfl, ?_⟩
        unfold cleanupCandidate
        simp [hsp, hmem, hps]
    · intro hsp
      have hmem : ' ' ∉ l.data := by simpa using hsp
      unfold cleanupCandidate
      simp [hsp, hmem]

/-- Witness for C7 on the concrete invalid line `"bad line"`. -/
theorem sync_cleanup_invalid_lines_witness :
    (sync_with_api emptyDB (mkCodesResp ["bad line"])).calls.filter RemoteCall.isDel
        = [RemoteCall.del "bad" syncHeaders] ∧
    (∃ tok rest, pySplit ("bad line" : String).data = tok :: rest ∧
        cleanupCandidate "bad line" = ⟨tok⟩) := by
  obtain ⟨h1, _h2, h3⟩ := sync_cleanup_invalid_lines emptyDB ["bad line"]
  refine ⟨h1.trans (by decide), (h3 "bad line" (by decide)).1 (by decide)⟩

/-! ### C8: the shared API-key header -/

lemma key_mem_syncHeaders : ("X-API-Key", api_key) ∈ syncHeaders := by decide

lemma key_mem_lifecycleHeaders : ("X-API-Key", api_key) ∈ lifecycleHeaders := by decide

lemma cleanupCalls_all_key (l : List String) :
    (cleanupCalls l).all hasApiKeyHeader = true := by
  induction l with
  | nil => rfl
  | cons a t ih =>
    simp only [cleanupCalls, List.map_cons, List.all_cons] at ih ⊢
    rw [ih]
    simp [hasApiKeyHeader, key_mem_syncHeaders]

lemma pushbackCalls_all_key (s : List (String × String)) :
    (pushbackCalls s).all hasApiKeyHeader = true := by
  induction s with
  | nil => rfl
  | cons r t ih =>
    unfold pushbackCalls at ih ⊢
    rw [List.filterMap_cons]
    cases h : strptimeISO r.2.data with
    | none => simpa [h] using ih
    | some d => simp [h, ih, hasApiKeyHeader, key_mem_syncHeaders]

lemma sync_calls_all_key (db : DB) (resp : ApiResponse) :
    (sync_with_api db resp).calls.all hasApiKeyHeader = true := by
  cases hp : pullLines resp with
  | error r =>
    simp [sync_with_api, hp, sync_getCall, hasApiKeyHeader, key_mem_syncHeaders]
  | ok rawLines =>
    simp [sync_with_api, hp, cleanupCalls_all_key, pushbackCalls_all_key,
      sync_getCall, hasApiKeyHeader, key_mem_syncHeaders]

lemma remove_calls_validated (db : DB) (code : String) (resp : ApiResponse) :
    (remove_giftcode db code true resp).calls = [RemoteCall.del code lifecycleHeaders] := by
  rw [remove_giftcode_spec]
  by_cases h : removeConfirmed resp <;> simp [h]

lemma remove_calls_all_key (db : DB) (code : String) (fv : Bool) (resp : ApiResponse) :
    (remove_giftcode db code fv resp).calls.all hasApiKeyHeader = true := by
  cases fv with
  | false => rfl
  | true =>
    rw [remove_calls_validated]
    simp [hasApiKeyHeader, key_mem_lifecycleHeaders]

lemma add_calls_all_key (db : DB) (code : String) (resp : ApiResponse)
    (now1 now2 : Date) :
    (add_giftcode db code resp now1 now2).calls.all hasApiKeyHeader = true := by
  rcases hfind : db.gift_codes.find? (fun r => r.1 = code) with _ | v
  · rw [add_giftcode_spec db code resp now1 now2 hfind]
    by_cases h : addAccepts resp <;>
      simp [h, hasApiKeyHeader, key_mem_lifecycleHeaders]
  · unfold add_giftcode
    simp [hfind]

lemma validate_calls_all_key (db : DB) (st : String → Option String)
    (dresp : String → ApiResponse) :
    (validate_and_clean_giftcode_file db st dresp).2.2.all hasApiKeyHeader = true := by
  unfold validate_and_clean_giftcode_file
  suffices h : ∀ (rows : List String) (acc : DB × List String × List RemoteCall),
      acc.2.2.all hasApiKeyHeader = true →
      (rows.foldl (validateStep st dresp) acc).2.2.all hasApiKeyHeader = true from
    h _ (db, [], []) rfl
  intro rows
  induction rows with
  | nil => intro acc hacc; exact hacc
  | cons code rest ih =>
    intro acc hacc
    rw [List.foldl_cons]
    apply ih
    unfold validateStep
    cases hst : st code with
    | none => exact hacc
    | some s =>
      by_cases htr : tripleNegative s
      · simp only [htr, if_true, List.all_append]
        rw [hacc, remove_calls_validated]
        simp [hasApiKeyHeader, key_mem_lifecycleHeaders]
      · simp [htr, hacc]

lemma check_calls (gcode : String) (resp : ApiResponse) :
    (check_giftcode gcode resp).2
      = [RemoteCall.get (api_url ++ "?action=check&giftcode=" ++ gcode) []] := by
  unfold check_giftcode
  by_cases h : resp.status ≠ 200
  · simp [h]
  · simp only [h, if_false]
    cases resp.bodyJson with
    | none => rfl
    | some j => cases j <;> rfl

/-- Counterexample to claim C8: the existence GET of `check_giftcode` is
issued without any headers, so it does not carry the shared `X-API-Key`. -/
theorem check_giftcode_no_api_key_cex :
    (check_giftcode "X" ⟨200, false, none⟩).2
      = [RemoteCall.get (api_url ++ "?action=check&giftcode=X") []] ∧
    ((check_giftcode "X" ⟨200, false, none⟩).2.map hasApiKeyHeader) = [false] := by
  decide

/-- Claim C8 as amended: every request issued by `sync_with_api` (the GET,
the bulk DELETEs, the bulk POSTs), by `add_giftcode`, by `remove_giftcode`
and by `validate_and_clean_giftcode_file` carries the `X-API-Key` header —
but the `check_giftcode` existence GET is the exception: it is sent with no
headers at all. -/
theorem api_key_header_coverage (db : DB) (resp : ApiResponse)
    (code gcode : String) (fv : Bool) (now1 now2 : Date)
    (st : String → Option String) (dresp : String → ApiResponse) :
    ((sync_with_api db resp).calls.all hasApiKeyHeader = true) ∧
    ((add_giftcode db code resp now1 now2).calls.all hasApiKeyHeader = true) ∧
    ((remove_giftcode db code fv resp).calls.all hasApiKeyHeader = true) ∧
    ((validate_and_clean_giftcode_file db st dresp).2.2.all hasApiKeyHeader = true) ∧
    ((check_giftcode gcode resp).2.all (fun cl => !(hasApiKeyHeader cl)) = true) := by
  refine ⟨sync_calls_all_key db resp, add_calls_all_key db code resp now1 now2,
    remove_calls_all_key db code fv resp, validate_calls_all_key db st dresp, ?_⟩
  rw [check_calls]
  simp [hasApiKeyHeader]

/-! ### C9: validate-and-clean removal rule -/

lemma validateStep_skip (statusOf : String → Option String)
    (dresp : String → ApiResponse) (acc : DB × List String × List RemoteCall)
    (code : String) (h : statusTriple statusOf code = false) :
    validateStep statusOf dresp acc code = acc := by
  cases hst : statusOf code with
  | none => simp [validateStep, hst]
  | some s =>
    have hs : tripleNegative s = false := by simpa [statusTriple, hst] using h
    simp [validateStep, hst, hs]

lemma validateStep_remove (statusOf : String → Option String)
    (dresp : String → ApiResponse) (acc : DB × List String × List RemoteCall)
    (code : String) (hconf : removeConfirmed (dresp code) = true)
    (h : statusTriple statusOf code = true) :
    validateStep statusOf dresp acc code =
      ({ acc.1 with
          user_giftcodes := acc.1.user_giftcodes.filter (fun r => r.2 ≠ code),
          gift_codes := acc.1.gift_codes.filter (fun r => r.1 ≠ code) },
        acc.2.1 ++ [code], acc.2.2 ++ [RemoteCall.del code lifecycleHeaders]) := by
  cases hst : statusOf code with
  | none => simp [statusTriple, hst] at h
  | some s =>
    have hs : tripleNegative s = true := by simpa [statusTriple, hst] using h
    have hrem := remove_giftcode_spec acc.1 code (dresp code)
    rw [hconf] at hrem
    simp only [if_pos] at hrem
    simp [validateStep, hst, hs, hrem]

lemma validate_fold_spec (statusOf : String → Option String)
    (dresp : String → ApiResponse) (hconf : ∀ c, removeConfirmed (dresp c) = true) :
    ∀ (rows : List String) (cur : DB) (inv : List String) (calls : List RemoteCall),
    (rows.foldl (validateStep statusOf dresp) (cur, inv, calls)).2.1
        = inv ++ rows.filter (statusTriple statusOf) ∧
    (rows.foldl (validateStep statusOf dresp) (cur, inv, calls)).1.gift_codes
        = cur.gift_codes.filter
            (fun r => !(rows.contains r.1 && statusTriple statusOf r.1)) ∧
    (rows.foldl (validateStep statusOf dresp) (cur, inv, calls)).1.user_giftcodes
        = cur.user_giftcodes.filter
            (fun r => !(rows.contains r.2 && statusTriple statusOf r.2)) ∧
    (rows.foldl (validateStep statusOf dresp) (cur, inv, calls)).1.giftcodecontrol
        = cur.giftcodecontrol ∧
    (rows.foldl (validateStep statusOf dresp) (cur, inv, calls)).1.admin
        = cur.admin := by
  intro rows
  induction rows with
  | nil =>
    intro cur inv calls
    simp
  | cons code rest ih =>
    intro cur inv calls
    rw [List.foldl_cons]
    cases htrip : statusTriple statusOf code with
    | false =>
      rw [validateStep_skip statusOf dresp _ code htrip]
      obtain ⟨ih1, ih2, ih3, ih4, ih5⟩ := ih cur inv calls
      refine ⟨?_, ?_, ?_, ih4, ih5⟩
      · rw [ih1, List.filter_cons]
        simp [htrip]
      · rw [ih2]
        apply List.filter_congr
        intro r _
        by_cases hrc : r.1 = code
        · simp [List.contains_cons, hrc, htrip]
        · simp [List.contains_cons, hrc]
      · rw [ih3]
        apply List.filter_congr
        intro r _
        by_cases hrc : r.2 = code
        · simp [List.contains_cons, hrc, htrip]
        · simp [List.contains_cons, hrc]
    | true =>
      rw [validateStep_remove statusOf dresp _ code (hconf code) htrip]
      obtain ⟨ih1, ih2, ih3, ih4, ih5⟩ :=
        ih { cur with
              user_giftcodes := cur.user_giftcodes.filter (fun r => r.2 ≠ code),
              gift_codes := cur.gift_codes.filter (fun r => r.1 ≠ code) }
          (inv ++ [code]) (calls ++ [RemoteCall.del code lifecycleHeaders])
      refine ⟨?_, ?_, ?_, by simpa using ih4, by simpa using ih5⟩
      · rw [ih1, List.filter_cons]
        simp [htrip]
      · rw [ih2]
        simp only [List.filter_filter]
        apply List.filter_congr
        intro r _
        by_cases hrc : r.1 = code
        · simp [List.contains_cons, hrc, htrip]
        · simp [List.contains_cons, hrc]
      · rw [ih3]
        simp only [List.filter_filter]
        apply List.filter_congr
        intro r _
        by_cases hrc : r.2 = code
        · simp [List.contains_cons, hrc, htrip]
        · simp [List.contains_cons, hrc]

/-- Claim C9: over the snapshot of stored codes,
`validate_and_clean_giftcode_file` invokes `remove_giftcode(code,
from_validation=True)` exactly for the codes whose collaborator outcome is
`TIME_ERROR`, `CDK_NOT_FOUND` or `USAGE_LIMIT` (a collaborator exception is
`statusOf = none` and keeps the code); assuming the remote DELETEs confirm
(`hconf`) and claim rows reference stored codes (the `user_giftcodes`
foreign key, `hfk`), a code's rows are gone from the final store iff its
outcome was one of the three — all other codes, their claims, and the other
tables survive, and one code's failure does not stop the rest (the fold
processes every row). -/
theorem validate_and_clean_removal_rule (db : DB)
    (statusOf : String → Option String) (dresp : String → ApiResponse)
    (hconf : ∀ c, removeConfirmed (dresp c) = true)
    (hfk : ∀ u ∈ db.user_giftcodes, ∃ r ∈ db.gift_codes, r.1 = u.2) :
    (validate_and_clean_giftcode_file db statusOf dresp).2.1
        = (db.gift_codes.map (·.1)).filter (statusTriple statusOf) ∧
    (validate_and_clean_giftcode_file db statusOf dresp).1.gift_codes
        = db.gift_codes.filter (fun r => !(statusTriple statusOf r.1)) ∧
    (validate_and_clean_giftcode_file db statusOf dresp).1.user_giftcodes
        = db.user_giftcodes.filter (fun r => !(statusTriple statusOf r.2)) ∧
    (validate_and_clean_giftcode_file db statusOf dresp).1.giftcodecontrol
        = db.giftcodecontrol ∧
    (validate_and_clean_giftcode_file db statusOf dresp).1.admin = db.admin := by
  obtain ⟨h1, h2, h3, h4, h5⟩ :=
    validate_fold_spec statusOf dresp hconf (db.gift_codes.map (·.1)) db [] []
  unfold validate_and_clean_giftcode_file
  refine ⟨by simpa using h1, ?_, ?_, h4, h5⟩
  · rw [h2]
    apply List.filter_congr
    intro r hr
    have hmem : r.1 ∈ db.gift_codes.map (·.1) := List.mem_map_of_mem _ hr
    have hcont : (db.gift_codes.map (·.1)).contains r.1 = true := by
      simpa using hmem
    rw [hcont, Bool.true_and]
  · rw [h3]
    apply List.filter_congr
    intro r hr
    obtain ⟨g, hg, hge⟩ := hfk r hr
    have hmem : r.2 ∈ db.gift_codes.map (·.1) := by
      rw [← hge]
      exact List.mem_map_of_mem _ hg
    have hcont : (db.gift_codes.map (·.1)).contains r.2 = true := by
      simpa using hmem
    rw [hcont, Bool.true_and]

/-- Witness for C9: a store with `OLD1` (outcome `USAGE_LIMIT`) and `KEEP`
(outcome `OK`); `OLD1` and its claim row are removed, `KEEP` survives. -/
theorem validate_and_clean_removal_rule_witness :
    (validate_and_clean_giftcode_file
        ⟨[("OLD1", "2024-06-01"), ("KEEP", "2024-06-02")], [("u", "OLD1")], [], []⟩
        (fun c => if c = "OLD1" then some "USAGE_LIMIT" else some "OK")
        (fun _ => ⟨200, false, some (.obj [("success", .bool true)])⟩)).2.1
      = ["OLD1"] ∧
    (validate_and_clean_giftcode_file
        ⟨[("OLD1", "2024-06-01"), ("KEEP", "2024-06-02")], [("u", "OLD1")], [], []⟩
        (fun c => if c = "OLD1" then some "USAGE_LIMIT" else some "OK")
        (fun _ => ⟨200, false, some (.obj [("success", .bool true)])⟩)).1.gift_codes
      = [("KEEP", "2024-06-02")] ∧
    (validate_and_clean_giftcode_file
        ⟨[("OLD1", "2024-06-01"), ("KEEP", "2024-06-02")], [("u", "OLD1")], [], []⟩
        (fun c => if c = "OLD1" then some "USAGE_LIMIT" else some "OK")
        (fun _ => ⟨200, false, some (.obj [("success", .bool true)])⟩)).1.user_giftcodes
      = [] := by
  obtain ⟨h1, h2, h3, _h4, _h5⟩ :=
    validate_and_clean_removal_rule
      ⟨[("OLD1", "2024-06-01"), ("KEEP", "2024-06-02")], [("u", "OLD1")], [], []⟩
      (fun c => if c = "OLD1" then some "USAGE_LIMIT" else some "OK")
      (fun _ => ⟨200, false, some (.obj [("success", .bool true)])⟩)
      (fun _ => rfl)
      (by decide)
  exact ⟨h1.trans (by decide), h2.trans (by decide), h3.trans (by decide)⟩

/-! ### C2: the `DD.MM.YYYY` round trip -/

/-- Canonical zero-padded shape `DD.MM.YYYY`: two digit characters, a dot,
two digit characters, a dot, four digit characters with a non-zero leading
year digit. -/
def paddedDMY (t : List Char) : Bool :=
  match t with
  | [d1, d2, c1, m1, m2, c2, y1, y2, y3, y4] =>
    c1 = '.' && c2 = '.' &&
    isDigitChar d1 && isDigitChar d2 && isDigitChar m1 && isDigitChar m2 &&
    isDigitChar y1 && isDigitChar y2 && isDigitChar y3 && isDigitChar y4 && y1 ≠ '0'
  | _ => false

lemma isDigitChar_cases (c : Char) (h : isDigitChar c = true) :
    c = '0' ∨ c = '1' ∨ c = '2' ∨ c = '3' ∨ c = '4' ∨
    c = '5' ∨ c = '6' ∨ c = '7' ∨ c = '8' ∨ c = '9' := by
  simpa [isDigitChar, or_assoc] using h

lemma digitChar_digitVal (c : Char) (h : isDigitChar c = true) :
    Nat.digitChar (digitVal c) = c := by
  rcases isDigitChar_cases c h with rfl | rfl | rfl | rfl | rfl | rfl | rfl | rfl | rfl | rfl <;>
    rfl

lemma digitVal_le_nine (c : Char) (h : isDigitChar c = true) : digitVal c ≤ 9 := by
  rcases isDigitChar_cases c h with rfl | rfl | rfl | rfl | rfl | rfl | rfl | rfl | rfl | rfl <;>
    decide

lemma digitVal_pos (c : Char) (h : isDigitChar c = true) (h0 : c ≠ '0') :
    1 ≤ digitVal c := by
  rcases isDigitChar_cases c h with rfl | rfl | rfl | rfl | rfl | rfl | rfl | rfl | rfl | rfl
  · exact absurd rfl h0
  all_goals decide

lemma digit_ne_dot (c : Char) (h : isDigitChar c = true) : ¬(c = '.') := by
  rcases isDigitChar_cases c h with rfl | rfl | rfl | rfl | rfl | rfl | rfl | rfl | rfl | rfl <;>
    decide

lemma natCharsAux_congr : ∀ (f1 f2 n : Nat), n < f1 → n < f2 →
    natCharsAux f1 n = natCharsAux f2 n := by
  intro f1
  induction f1 with
  | zero => intro f2 n h1 _; exact absurd h1 (Nat.not_lt_zero n)
  | succ f ih =>
    intro f2 n h1 h2
    cases f2 with
    | zero => exact absurd h2 (Nat.not_lt_zero n)
    | succ g =>
      simp only [natCharsAux]
      by_cases hn : n < 10
      · simp [hn]
      · simp only [hn, if_false]
        rw [ih g (n / 10) (by omega) (by omega)]

lemma natChars_lt (n : Nat) (h : n < 10) : natChars n = [Nat.digitChar n] := by
  simp [natChars, natCharsAux, h]

lemma natChars_ge (n : Nat) (h : 10 ≤ n) :
    natChars n = natChars (n / 10) ++ [Nat.digitChar (n % 10)] := by
  show natCharsAux (n + 1) n = natCharsAux (n / 10 + 1) (n / 10) ++ [Nat.digitChar (n % 10)]
  rw [show natCharsAux (n + 1) n
      = if n < 10 then [Nat.digitChar n]
        else natCharsAux n (n / 10) ++ [Nat.digitChar (n % 10)] from rfl]
  rw [if_neg (by omega)]
  rw [natCharsAux_congr n (n / 10 + 1) (n / 10) (by omega) (by omega)]

lemma natChars_four (y : Nat) (h1 : 1000 ≤ y) (h2 : y ≤ 9999) :
    natChars y = [Nat.digitChar (y / 1000), Nat.digitChar (y / 100 % 10),
      Nat.digitChar (y / 10 % 10), Nat.digitChar (y % 10)] := by
  rw [natChars_ge y (by omega), natChars_ge (y / 10) (by omega),
    natChars_ge (y / 10 / 10) (by omega), natChars_lt (y / 10 / 10 / 10) (by omega)]
  have e1 : y / 10 / 10 = y / 100 := by omega
  have e2 : y / 10 / 10 / 10 = y / 1000 := by omega
  rw [e2, e1]
  simp

lemma two_render (a b : Char) (ha : isDigitChar a = true) (hb : isDigitChar b = true) :
    two (10 * digitVal a + digitVal b) = [a, b] := by
  have h9 := digitVal_le_nine b hb
  unfold two
  have e1 : (10 * digitVal a + digitVal b) / 10 = digitVal a := by omega
  have e2 : (10 * digitVal a + digitVal b) % 10 = digitVal b := by omega
  rw [e1, e2, digitChar_digitVal a ha, digitChar_digitVal b hb]

lemma year_render (a b c d : Char) (ha : isDigitChar a = true)
    (hb : isDigitChar b = true) (hc : isDigitChar c = true)
    (hd : isDigitChar d = true) (h0 : a ≠ '0') :
    natChars (1000 * digitVal a + 100 * digitVal b + 10 * digitVal c + digitVal d)
      = [a, b, c, d] := by
  have ha9 := digitVal_le_nine a ha
  have hb9 := digitVal_le_nine b hb
  have hc9 := digitVal_le_nine c hc
  have hd9 := digitVal_le_nine d hd
  have ha1 := digitVal_pos a ha h0
  rw [natChars_four _ (by omega) (by omega)]
  have e1 : (1000 * digitVal a + 100 * digitVal b + 10 * digitVal c + digitVal d) / 1000
      = digitVal a := by omega
  have e2 : (1000 * digitVal a + 100 * digitVal b + 10 * digitVal c + digitVal d) / 100 % 10
      = digitVal b := by omega
  have e3 : (1000 * digitVal a + 100 * digitVal b + 10 * digitVal c + digitVal d) / 10 % 10
      = digitVal c := by omega
  have e4 : (1000 * digitVal a + 100 * digitVal b + 10 * digitVal c + digitVal d) % 10
      = digitVal d := by omega
  rw [e1, e2, e3, e4, digitChar_digitVal a ha, digitChar_digitVal b hb,
    digitChar_digitVal c hc, digitChar_digitVal d hd]

lemma splitSep_padded (d1 d2 m1 m2 y1 y2 y3 y4 : Char)
    (h1 : isDigitChar d1 = true) (h2 : isDigitChar d2 = true)
    (h3 : isDigitChar m1 = true) (h4 : isDigitChar m2 = true)
    (h5 : isDigitChar y1 = true) (h6 : isDigitChar y2 = true)
    (h7 : isDigitChar y3 = true) (h8 : isDigitChar y4 = true) :
    splitSep '.' [d1, d2, '.', m1, m2, '.', y1, y2, y3, y4]
      = [[d1, d2], [m1, m2], [y1, y2, y3, y4]] := by
  simp [splitSep, digit_ne_dot d1 h1, digit_ne_dot d2 h2, digit_ne_dot m1 h3,
    digit_ne_dot m2 h4, digit_ne_dot y1 h5, digit_ne_dot y2 h6,
    digit_ne_dot y3 h7, digit_ne_dot y4 h8]

lemma matchDayTok_two (a b : Char) (n : Nat) (h : matchDayTok [a, b] = some n) :
    isDigitChar a = true ∧ isDigitChar b = true ∧ n = 10 * digitVal a + digitVal b := by
  have hred : matchDayTok [a, b]
      = if isDigitChar a && isDigitChar b
            && decide (1 ≤ 10 * digitVal a + digitVal b)
            && decide (10 * digitVal a + digitVal b ≤ 31) then
          some (10 * digitVal a + digitVal b)
        else none := rfl
  rw [hred] at h
  split at h
  · rename_i hcond
    simp only [Bool.and_eq_true] at hcond
    injection h with h1
    exact ⟨hcond.1.1.1, hcond.1.1.2, h1.symm⟩
  · cases h

lemma matchMonthTok_two (a b : Char) (n : Nat) (h : matchMonthTok [a, b] = some n) :
    isDigitChar a = true ∧ isDigitChar b = true ∧ n = 10 * digitVal a + digitVal b := by
  have hred : matchMonthTok [a, b]
      = if isDigitChar a && isDigitChar b
            && decide (1 ≤ 10 * digitVal a + digitVal b)
            && decide (10 * digitVal a + digitVal b ≤ 12) then
          some (10 * digitVal a + digitVal b)
        else none := rfl
  rw [hred] at h
  split at h
  · rename_i hcond
    simp only [Bool.and_eq_true] at hcond
    injection h with h1
    exact ⟨hcond.1.1.1, hcond.1.1.2, h1.symm⟩
  · cases h

lemma matchYearTok_four (a b c d : Char) (n : Nat)
    (h : matchYearTok [a, b, c, d] = some n) :
    n = 1000 * digitVal a + 100 * digitVal b + 10 * digitVal c + digitVal d := by
  have hred : matchYearTok [a, b, c, d]
      = if isDigitChar a && isDigitChar b && isDigitChar c && isDigitChar d then
          some (1000 * digitVal a + 100 * digitVal b + 10 * digitVal c + digitVal d)
        else none := rfl
  rw [hred] at h
  split at h
  · injection h with h1
    exact h1.symm
  · cases h

/-- On a canonical zero-padded token, re-formatting the parsed date with
`%d.%m.%Y` reproduces the token character for character. -/
lemma strptime_padded_roundtrip (t : List Char) (d : Date)
    (hpad : paddedDMY t = true) (hparse : strptimeDMY t = some d) :
    (fmtDDMMYYYY d).data = t := by
  unfold paddedDMY at hpad
  split at hpad
  · rename_i d1 d2 c1 m1 m2 c2 y1 y2 y3 y4
    simp only [Bool.and_eq_true, decide_eq_true_eq] at hpad
    obtain ⟨⟨⟨⟨⟨⟨⟨⟨⟨⟨hc1, hc2⟩, h1⟩, h2⟩, h3⟩, h4⟩, h5⟩, h6⟩, h7⟩, h8⟩, hy0⟩ := hpad
    subst hc1
    subst hc2
    unfold strptimeDMY at hparse
    rw [splitSep_padded d1 d2 m1 m2 y1 y2 y3 y4 h1 h2 h3 h4 h5 h6 h7 h8] at hparse
    cases hday : matchDayTok [d1, d2] with
    | none => simp [hday] at hparse
    | some dv =>
      cases hmon : matchMonthTok [m1, m2] with
      | none => simp [hday, hmon] at hparse
      | some mv =>
        cases hyr : matchYearTok [y1, y2, y3, y4] with
        | none => simp [hday, hmon, hyr] at hparse
        | some yv =>
          simp only [hday, hmon, hyr] at hparse
          split at hparse
          · injection hparse with hd
            subst hd
            obtain ⟨hda, hdb, hdv⟩ := matchDayTok_two d1 d2 dv hday
            obtain ⟨hma, hmb, hmv⟩ := matchMonthTok_two m1 m2 mv hmon
            have hyv := matchYearTok_four y1 y2 y3 y4 yv hyr
            unfold fmtDDMMYYYY
            rw [hdv, hmv, hyv, two_render d1 d2 hda hdb, two_render m1 m2 hma hmb,
              year_render y1 y2 y3 y4 h5 h6 h7 h8 hy0]
            simp
          · cases hparse
  · cases hpad

/-- Counterexample to claim C2: the raw line `"A 1.06.2024"` satisfies every
hypothesis of the claim — two whitespace-separated tokens, alphanumeric
code, and a second token that `strptime("%d.%m.%Y")` accepts (CPython's
`%d` also matches a single digit) — and is classified valid, yet formatting
the parsed date back gives `"01.06.2024"`, not the original token. -/
theorem parse_line_roundtrip_unpadded_cex :
    pySplit (pyStrip ("A 1.06.2024" : String).data)
        = [("A" : String).data, ("1.06.2024" : String).data] ∧
    isAlnum ("A" : String).data = true ∧
    strptimeDMY ("1.06.2024" : String).data = some ⟨1, 6, 2024⟩ ∧
    classifyLine "A 1.06.2024" = Sum.inl ("A", ⟨1, 6, 2024⟩) ∧
    fmtDDMMYYYY ⟨1, 6, 2024⟩ ≠ "1.06.2024" := by
  decide

/-- Claim C2 as amended: for a raw line with exactly two whitespace-separated
tokens whose first token is alphanumeric and whose second token parses under
`%d.%m.%Y` *and is in the canonical zero-padded form* (two-digit day,
two-digit month, four-digit year not starting with `0`), the classify step
marks the line valid and formatting the parsed date back to `DD.MM.YYYY`
reproduces token 2 character for character.  (Without the padding condition
the round trip fails — see the counterexample — because `strptime` also
accepts unpadded days/months, which re-format to their padded form.) -/
theorem parse_line_roundtrip_padded (raw : String) (cTok dTok : List Char) (d : Date)
    (hsplit : pySplit (pyStrip raw.data) = [cTok, dTok])
    (halnum : isAlnum cTok = true)
    (hparse : strptimeDMY dTok = some d)
    (hpad : paddedDMY dTok = true) :
    classifyLine raw = Sum.inl (⟨cTok⟩, d) ∧ (fmtDDMMYYYY d).data = dTok := by
  refine ⟨?_, strptime_padded_roundtrip dTok d hpad hparse⟩
  unfold classifyLine
  rw [hsplit]
  simp [halnum, hparse]

/-- Witness for C2 on the concrete padded line `"AB 01.06.2024"`. -/
theorem parse_line_roundtrip_padded_witness :
    classifyLine "AB 01.06.2024" = Sum.inl (⟨("AB" : String).data⟩, ⟨1, 6, 2024⟩) ∧
    (fmtDDMMYYYY ⟨1, 6, 2024⟩).data = ("01.06.2024" : String).data :=
  parse_line_roundtrip_padded "AB 01.06.2024" ("AB" : String).data
    ("01.06.2024" : String).data ⟨1, 6, 2024⟩ (by decide) (by decide) (by decide)
    (by decide)

end GiftAPI
